import Mathlib

/-!
Shallow embedding of `src/cli/pgext/tabulate.py` (pgsty/pig).

The script is a batch documentation generator over a CSV catalog of
PostgreSQL extensions.  Globals of the script (`DATA`, `CATE`, ...) become
parameters of the embedded functions.  Python string primitives are modelled
by character-list functions (`pyReplace`, `pyJoin`, ...) so that every
definition evaluates inside the kernel; Python exceptions (`ValueError` from
the distro dispatch, `KeyError` from the `DISTRO_MISS[distro]` lookup) are
modelled with `Except PyErr`.
-/

namespace PigExt

/-- Python exceptions raised by tabulate.py. -/
inductive PyErr where
  | valueError (msg : String)
  | keyError (key : String)
deriving DecidableEq

/-- Which column family a distro string selects: the `rpm_*` or the `deb_*`
columns (lines 386-391, 452-457, 512-517, 540-545). -/
inductive PkgClass where
  | rpm
  | deb
deriving DecidableEq

/-! ### Python string-primitive models (character-list level) -/

/-- Model of Python `str.startswith`. -/
def pyStartsWith (s pre : String) : Bool :=
  pre.data.isPrefixOf s.data

/-- Model of Python `str.endswith`. -/
def pyEndsWith (s suf : String) : Bool :=
  suf.data.isSuffixOf s.data

/-- Model of Python `str.lower` (the distro strings here are ASCII). -/
def pyLower (s : String) : String :=
  String.mk (s.data.map Char.toLower)

/-- Split a character list at every occurrence of `sep`, keeping empty parts
(the behaviour of Python `str.split` with an explicit one-character separator). -/
def splitChars (sep : Char) : List Char → List (List Char)
  | [] => [[]]
  | c :: cs =>
    if c = sep then [] :: splitChars sep cs
    else
      match splitChars sep cs with
      | [] => [[c]]
      | h :: t => (c :: h) :: t

/-- Model of Python `s.split(sep)` for a one-character separator. -/
def pySplitChar (s : String) (sep : Char) : List String :=
  (splitChars sep s.data).map fun l => String.mk l

/-- If `pat` is a prefix of `s`, return the remainder of `s`. -/
def dropPat? : List Char → List Char → Option (List Char)
  | [], s => some s
  | _ :: _, [] => none
  | p :: ps, c :: cs => if c = p then dropPat? ps cs else none

/-- Fuel-driven replacement of every leftmost, non-overlapping occurrence of
`pat` by `rep`; the fuel is the length of the scanned list, which each step
consumes, so it never runs out. -/
def replaceFuel (pat rep : List Char) : Nat → List Char → List Char
  | _, [] => []
  | 0, s => s
  | Nat.succ f, c :: cs =>
    match pat, dropPat? pat (c :: cs) with
    | _ :: _, some r => rep ++ replaceFuel pat rep f r
    | _, _ => c :: replaceFuel pat rep f cs

/-- Model of Python `s.replace(pat, rep)` for a nonempty pattern (every
pattern used by tabulate.py is nonempty). -/
def pyReplace (s pat rep : String) : String :=
  String.mk (replaceFuel pat.data rep.data s.data.length s.data)

/-- Does `pat` occur inside `s`?  Model of Python `pat in s`. -/
def containsChars (pat : List Char) : List Char → Bool
  | [] => pat.isPrefixOf []
  | c :: cs => pat.isPrefixOf (c :: cs) || containsChars pat cs

/-- Model of Python `pat in s` (substring test). -/
def pyContains (s pat : String) : Bool :=
  containsChars pat.data s.data

/-- Model of Python `sep.join(xs)`. -/
def pyJoin (sep : String) : List String → String
  | [] => ""
  | [x] => x
  | x :: y :: xs => x ++ sep ++ pyJoin sep (y :: xs)

/-- Model of Python `s.rstrip('# ')`: drop trailing `'#'` and `' '` characters. -/
def pyRstripHashSpace (s : String) : String :=
  String.mk ((s.data.reverse.dropWhile fun c => c == '#' || c == ' ').reverse)

/-- Model of Python `int(v)` for the all-digit version strings this script
guards on (`'12'`, ..., `'15'`). -/
def pyToNat (s : String) : Nat :=
  s.data.foldl (fun n c => n * 10 + (c.toNat - '0'.toNat)) 0

/-- Model of `list(dict.fromkeys(xs))`, via the set of already-seen keys:
deduplicate keeping the first occurrence of each element, in order. -/
def pyDedupAux (seen : List String) : List String → List String
  | [] => []
  | x :: xs => if x ∈ seen then pyDedupAux seen xs else x :: pyDedupAux (x :: seen) xs

/-- Model of Python `list(dict.fromkeys(xs))` (lines 531-532, 558-559). -/
def pyDedup (xs : List String) : List String :=
  pyDedupAux [] xs

/-- A `mapM` over `Except` written by structural recursion: the Python `for`
loop calling a fallible function on each element, stopping at the first
raised exception. -/
def mapME {α β ε : Type} (f : α → Except ε β) : List α → Except ε (List β)
  | [] => .ok []
  | a :: l =>
    match f a with
    | .error e => .error e
    | .ok b =>
      match mapME f l with
      | .error e => .error e
      | .ok bs => .ok (b :: bs)

/-! ### Constants of tabulate.py (lines 16-107) -/

def PG_VERS : List String := ["17", "16", "15", "14", "13", "12"]
def DISTROS : List String := ["el8", "el9", "d12", "u22", "u24"]
def DEB_OS : List String := ["d12", "u22", "u24"]
def RPM_OS : List String := ["el8", "el9"]

def THROW_LIST : List String := []
def HIDE_LIST : List String :=
  ["pgpool", "plr", "pgagent", "dbt2", "pgtap", "faker", "repmgr", "slony",
   "oracle_fdw", "pg_strom", "db2_fdw"]
/-- Extensions commented in pg_extensions due to conflict (line 67). -/
def EXT_NOP_LIST : List String := ["pg_mooncake", "citus"]

/-- The `DISTRO_MISS` dict (lines 68-77); `none` models a `KeyError` on lookup. -/
def DISTRO_MISS (d : String) : Option (List String) :=
  if d = "el7" then some ["pg_dbms_job", "pljava"]
  else if d = "el8" then some ["pg_dbms_job", "pljava"]
  else if d = "el9" then some ["pg_dbms_job"]
  else if d = "u24" then some ["pgml", "citus", "topn", "timescaledb_toolkit"]
  else if d = "u22" then some []
  else if d = "u20" then some ["pljava"]
  else if d = "d12" then some []
  else if d = "d11" then some ["pljava"]
  else none

/-- The keys of `DISTRO_MISS`, in declaration order. -/
def DISTRO_MISS_KEYS : List String :=
  ["el7", "el8", "el9", "u24", "u22", "u20", "d12", "d11"]

/-- The distro strings accepted by the rpm branch of the dispatch. -/
def RPM_DISTROS : List String := ["rpm", "el7", "el8", "el9"]

/-- The distro strings accepted by the deb branch of the dispatch. -/
def DEB_DISTROS : List String := ["deb", "u20", "u22", "u24", "d12", "d11"]

/-- The `REPO_MAP` dict (lines 40-47). -/
def REPO_MAP (k : String) : Option String :=
  if k = "PGDG" then some "**<span class=\"tccyan\">PGDG</span>**"
  else if k = "PIGSTY" then some "**<span class=\"tcwarn\">PIGSTY</span>**"
  else if k = "CONTRIB" then some "**<span class=\"tcblue\">CONTRIB</span>**"
  else if k = "WILTON" then some "**<span class=\"tcpurple\">WILTON</span>**"
  else if k = "CITUS" then some "**<span class=\"tcgreen\">CITUS</span>**"
  else if k = "TIMESCALE" then some "**<span class=\"tcwarn\">TIMESCALE</span>**"
  else none

/-- `REPO_MAP.get(x, x)` as used by the `rpmrepo` / `debrepo` columns. -/
def repoCol (repo : String) : String :=
  (REPO_MAP repo).getD repo

/-! ### The data model -/

/-- A value of an array-typed CSV cell after `load_data`: either the original
string (left untouched when the cell was empty) or the parsed list. -/
inductive CellVal where
  | str (s : String)
  | arr (l : List String)
deriving DecidableEq

/-- Python `x in cell` on a loaded array cell: substring test on a string,
element test on a list. -/
def cellMem (v : String) : CellVal → Bool
  | .str s => pyContains s v
  | .arr l => l.contains v

/-- A raw CSV row of pigsty.csv: every field as the string read by
`csv.DictReader`.  Only fields read by `load_data` are listed. -/
structure RawRow where
  id : String
  name : String
  aliasName : String
  category : String
  repo : String
  tags : String
  schemas : String
  pg_ver : String
  requires : String
  rpm_deps : String
  deb_deps : String
  rpm_pg : String
  deb_pg : String
  utility : String
  lead : String
  has_solib : String
  need_ddl : String
  need_load : String
  trusted : String
  relocatable : String
  rpm_repo : String
  rpm_pkg : String
  deb_repo : String
  deb_pkg : String
deriving DecidableEq

/-- The closure `parse_array` of line 230:
`v[1:-1].split(',') if v.startswith('{') and v.endswith('}') else []`. -/
def parse_array (v : String) : List String :=
  if pyStartsWith v "\x7b" && pyEndsWith v "\x7d" then
    pySplitChar (String.mk ((v.data.drop 1).dropLast)) ','
  else []

/-- The per-field step `if row[k]: row[k] = parse_array(row[k])` of lines
236-243: an empty cell is left as the (empty) string, a nonempty cell is
replaced by the parsed list. -/
def parseArrayField (v : String) : CellVal :=
  if v = "" then .str v else .arr (parse_array v)

/-- The tri-state parse repeated on lines 245-251:
`True if v == 't' else False if v == 'f' else None`. -/
def parseTri (v : String) : Option Bool :=
  if v = "t" then some true else if v = "f" then some false else none

/-- A row of the loaded catalog as produced by `load_data` (lines 234-271).
The `id` field keeps its raw string (the `int()` cast is not needed by any
claim). -/
structure LoadedRow where
  id : String
  name : String
  aliasName : String
  category : String
  repo : String
  tags : CellVal
  schemas : CellVal
  pg_ver : CellVal
  requires : CellVal
  rpm_deps : CellVal
  deb_deps : CellVal
  rpm_pg : CellVal
  deb_pg : CellVal
  utility : Option Bool
  lead : Option Bool
  has_solib : Option Bool
  need_ddl : Option Bool
  need_load : Option Bool
  trusted : Option Bool
  relocatable : Option Bool
  rpm_repo : String
  rpm_pkg : String
  deb_repo : String
  deb_pkg : String
  has_rpm : Bool
  has_deb : Bool
  has_both : Bool
  pg12 : Bool
  pg13 : Bool
  pg14 : Bool
  pg15 : Bool
  pg16 : Bool
  pg17 : Bool
  contrib : Bool
  rpm_pgdg : Bool
  rpm_pigsty : Bool
  rpm_misc : Bool
  deb_pgdg : Bool
  deb_pigsty : Bool
  deb_misc : Bool
deriving DecidableEq

/-- The body of the `load_data` loop (lines 234-271) for one CSV row.
Note line 255 of the source computes
`has_both = True if row['deb_repo'] and row['deb_repo'] else False`,
reading `deb_repo` twice. -/
def loadRow (r : RawRow) : LoadedRow :=
  let pg_ver := parseArrayField r.pg_ver
  { id := r.id
    name := r.name
    aliasName := r.aliasName
    category := r.category
    repo := r.repo
    tags := parseArrayField r.tags
    schemas := parseArrayField r.schemas
    pg_ver := pg_ver
    requires := parseArrayField r.requires
    rpm_deps := parseArrayField r.rpm_deps
    deb_deps := parseArrayField r.deb_deps
    rpm_pg := parseArrayField r.rpm_pg
    deb_pg := parseArrayField r.deb_pg
    utility := parseTri r.utility
    lead := parseTri r.lead
    has_solib := parseTri r.has_solib
    need_ddl := parseTri r.need_ddl
    need_load := parseTri r.need_load
    trusted := parseTri r.trusted
    relocatable := parseTri r.relocatable
    rpm_repo := r.rpm_repo
    rpm_pkg := r.rpm_pkg
    deb_repo := r.deb_repo
    deb_pkg := r.deb_pkg
    has_rpm := r.rpm_repo ≠ ""
    has_deb := r.deb_repo ≠ ""
    has_both := r.deb_repo ≠ "" && r.deb_repo ≠ ""
    pg12 := cellMem "12" pg_ver
    pg13 := cellMem "13" pg_ver
    pg14 := cellMem "14" pg_ver
    pg15 := cellMem "15" pg_ver
    pg16 := cellMem "16" pg_ver
    pg17 := cellMem "17" pg_ver
    contrib := r.repo = "CONTRIB"
    rpm_pgdg := r.rpm_repo ≠ "" && r.rpm_repo = "PGDG"
    rpm_pigsty := r.rpm_repo ≠ "" && r.rpm_repo = "PIGSTY"
    rpm_misc := r.rpm_repo ≠ "" &&
      r.rpm_repo ∉ ["PGDG", "PIGSTY", "TIMESCALE", "CITUS", "CONTRIB", ""]
    deb_pgdg := r.deb_repo ≠ "" && r.deb_repo = "PGDG"
    deb_pigsty := r.deb_repo ≠ "" && r.deb_repo = "PIGSTY"
    deb_misc := r.deb_repo ≠ "" &&
      r.deb_repo ∉ ["PGDG", "PIGSTY", "TIMESCALE", "CITUS", "CONTRIB", ""] }

/-- A loaded catalog row restricted to the fields that `process_ext`,
`judge_ext`, the list generators and the install-section builder read.
Array cells that those functions only test membership on are kept as plain
lists; `lead` is kept as its Python truthiness. -/
structure Row where
  name : String
  aliasName : String
  category : String
  lead : Bool
  rpm_repo : String
  rpm_pkg : String
  rpm_pg : List String
  has_rpm : Bool
  deb_repo : String
  deb_pkg : String
  deb_pg : List String
  has_deb : Bool
deriving DecidableEq

/-- `ext[REPO_KEY]` for the selected column family. -/
def extRepo : PkgClass → Row → String
  | .rpm, e => e.rpm_repo
  | .deb, e => e.deb_repo

/-- `ext[PKG_KEY]` for the selected column family. -/
def extPkg : PkgClass → Row → String
  | .rpm, e => e.rpm_pkg
  | .deb, e => e.deb_pkg

/-- `ext[VER_KEY]` for the selected column family. -/
def extPg : PkgClass → Row → List String
  | .rpm, e => e.rpm_pg
  | .deb, e => e.deb_pg

/-- `ext[HAS_KEY]` for the selected column family. -/
def extHas : PkgClass → Row → Bool
  | .rpm, e => e.has_rpm
  | .deb, e => e.has_deb

/-- `ext['has_rpm']` or `ext['has_deb']` according to the branch the distro
dispatch takes for `distro`. -/
def distroHas (distro : String) (ext : Row) : Bool :=
  if distro ∈ RPM_DISTROS then ext.has_rpm else ext.has_deb

/-- `ext['rpm_pg']` or `ext['deb_pg']` according to the branch the distro
dispatch takes for `distro`. -/
def distroPg (distro : String) (ext : Row) : List String :=
  if distro ∈ RPM_DISTROS then ext.rpm_pg else ext.deb_pg

/-! ### The distro dispatch and the two per-extension functions -/

/-- The column-family dispatch shared by `process_ext` (lines 386-391),
`judge_ext` (lines 452-457), `gen_ext_list` (lines 512-517) and
`gen_cate_ext_list` (lines 540-545): select the rpm columns, the deb
columns, or raise `ValueError`. -/
def classifyDistro (distro : String) : Except PyErr PkgClass :=
  if distro ∈ RPM_DISTROS then .ok .rpm
  else if distro ∈ DEB_DISTROS then .ok .deb
  else .error (.valueError ("Invalid distro: " ++ distro))

/-- The column-family dispatch of `gen_ext_list` (lines 512-517) and
`gen_cate_ext_list` (lines 540-545): the membership tests run on
`distro.lower()`, while the `ValueError` message interpolates the original
`distro`. -/
def classifyDistroLower (distro : String) : Except PyErr PkgClass :=
  if pyLower distro ∈ RPM_DISTROS then .ok .rpm
  else if pyLower distro ∈ DEB_DISTROS then .ok .deb
  else .error (.valueError ("Invalid distro: " ++ distro))

/-- Lines 398-406 of `process_ext`, textually identical to lines 464-472 of
`judge_ext`: the special-case renames of package and extension for pgaudit,
citus and postgis. -/
def renameCases (ver distro name aliasName package extension : String) :
    String × String :=
  let pe := (package, extension)
  let pe :=
    if name = "pgaudit" ∧ distro ∈ RPM_OS ∧ ver ∈ ["12", "13", "14", "15"] then
      (pyReplace pe.1 "pgaudit" ("pgaudit" ++ toString (pyToNat ver + 2)),
       aliasName ++ toString (pyToNat ver + 2))
    else pe
  let pe :=
    if name = "citus" ∧ distro ∈ DEB_OS ∧ ver ∈ ["12", "13"] then
      (pyReplace pe.1 "citus-12.1" ("citus-" ++ (if ver = "12" then "10.2" else "11.3")),
       aliasName ++ toString (pyToNat ver - 2))
    else pe
  let pe :=
    if name = "postgis" ∧ distro ∈ ["el8", "el9"] ∧ ver = "12" then
      (pyReplace pe.1 "postgis35" "postgis34", "postgis34")
    else pe
  let pe :=
    if name = "postgis" ∧ distro = "el7" then
      (pyReplace pe.1 "postgis35" "postgis33", "postgis33")
    else pe
  pe

/-- The result type of `process_ext`: `(pkg_aye, pkg_nay, ext_aye, ext_nay)`. -/
abbrev Quad := List String × List String × List String × List String

/-- Lines 439-445: place the token in the aye list, the nay list (with the
`'#'` comment marker), or neither, according to the drop/hide flags. -/
def ayeNay (drop hide : Bool) (tok : String) : List String × List String :=
  if drop then ([], [])
  else if hide then ([], ["#" ++ tok])
  else ([tok], [])

/-- The body of `process_ext` (lines 392-447) after the column family has
been selected.  Line 394 evaluates
`avail and ver in pg_vers and name not in DISTRO_MISS[distro]` left to right
with short-circuiting, so the `DISTRO_MISS[distro]` lookup (which raises
`KeyError` for a distro that is not a key) only runs when `avail` is truthy
and `ver` is in `pg_vers`. -/
def processExtWith (ks : PkgClass) (ver distro : String) (ext : Row) :
    Except PyErr Quad :=
  let name := ext.name
  let aliasName := ext.aliasName
  let extension := ext.aliasName
  let package := pyReplace (extPkg ks ext) "$v" ver
  let pg_vers := extPg ks ext
  let avail := extHas ks ext
  let keepE : Except PyErr Bool :=
    if avail then
      if ver ∈ pg_vers then
        match DISTRO_MISS distro with
        | some miss => .ok (decide (name ∉ miss))
        | none => .error (.keyError distro)
      else .ok false
    else .ok false
  match keepE with
  | .error e => .error e
  | .ok keep =>
    let (hide_pkg, hide_ext) := if keep then (false, false) else (true, true)
    let (drop_pkg, drop_ext) := (false, false)
    let (package, extension) := renameCases ver distro name aliasName package extension
    let hide_ext := if name ∈ EXT_NOP_LIST then true else hide_ext
    let (hide_pkg, hide_ext) :=
      if distro = "u24" ∧ name = "timescaledb" ∧ ver = "12" then (true, true)
      else (hide_pkg, hide_ext)
    let (hide_pkg, hide_ext) :=
      if distro = "u24" ∧ name ∈ ["pg_partman", "timeseries"] ∧ ver ∈ ["12", "13"] then
        (true, true)
      else (hide_pkg, hide_ext)
    let (drop_pkg, drop_ext) :=
      if aliasName ∈ THROW_LIST then (true, true) else (drop_pkg, drop_ext)
    let (hide_pkg, hide_ext) :=
      if aliasName ∈ HIDE_LIST then (true, true) else (hide_pkg, hide_ext)
    let (package, extension, hide_pkg, hide_ext) :=
      if name = "babelfishpg_common" ∧
          distro ∈ ["el7", "el8", "el9", "u20", "u22", "u24"] then
        ("wiltondb", "wiltondb", true, true)
      else (package, extension, hide_pkg, hide_ext)
    let (drop_pkg, drop_ext) :=
      if name ∈ ["babelfishpg_tsql", "babelfishpg_tds", "babelfishpg_money"] then
        (true, true)
      else (drop_pkg, drop_ext)
    let (drop_pkg, drop_ext) :=
      if pyStartsWith name "babelfishpg" ∧
          distro ∉ ["el7", "el8", "el9", "u20", "u22", "u24"] then
        (true, true)
      else (drop_pkg, drop_ext)
    let extension := if name = "hunspell_cs_cz" then "hunspell" else extension
    let drop_ext :=
      if pyStartsWith name "hunspell" ∧ name ≠ "hunspell_cs_cz" then true
      else drop_ext
    let pkg_pair := ayeNay drop_pkg hide_pkg package
    let ext_pair := ayeNay drop_ext hide_ext extension
    .ok (pkg_pair.1, pkg_pair.2, ext_pair.1, ext_pair.2)

/-- `process_ext` (lines 385-447). -/
def processExt (ver distro : String) (ext : Row) : Except PyErr Quad :=
  match classifyDistro distro with
  | .error e => .error e
  | .ok ks => processExtWith ks ver distro ext

/-- The body of `judge_ext` (lines 458-480) after the column family has been
selected.  Line 458 reads `ext[HAS_KEY]` into `avail` but line 459
immediately overwrites it with `str(ver) in pg_vers`; line 461 performs the
`DISTRO_MISS[distro]` lookup unconditionally. -/
def judgeExtWith (ks : PkgClass) (ver distro : String) (ext : Row) :
    Except PyErr (String × String × Bool) :=
  let name := ext.name
  let aliasName := ext.aliasName
  let extension := ext.aliasName
  let package := pyReplace (extPkg ks ext) "$v" ver
  let pg_vers := extPg ks ext
  let avail := decide (ver ∈ pg_vers)
  match DISTRO_MISS distro with
  | none => .error (.keyError distro)
  | some miss =>
    let avail := if name ∈ miss then false else avail
    let (package, extension) := renameCases ver distro name aliasName package extension
    let (package, extension) :=
      if pyStartsWith name "babelfishpg" then ("wiltondb", "wiltondb")
      else (package, extension)
    let avail :=
      if distro = "u24" ∧ name = "timescaledb" ∧ ver = "12" then false else avail
    let avail :=
      if distro = "u24" ∧ name ∈ ["pg_partman", "timeseries"] ∧ ver ∈ ["12", "13"] then
        false
      else avail
    let avail := if aliasName ∈ THROW_LIST then false else avail
    .ok (package, extension, avail)

/-- `judge_ext` (lines 451-480). -/
def judgeExt (ver distro : String) (ext : Row) :
    Except PyErr (String × String × Bool) :=
  match classifyDistro distro with
  | .error e => .error e
  | .ok ks => judgeExtWith ks ver distro ext

/-! ### The list generators -/

/-- The entry-building step of lines 531-532 / 558-559:
`(' '.join(list(dict.fromkeys(aye))) + ' ' + ' '.join(list(dict.fromkeys(nay)))).rstrip('# ')`. -/
def genEntry (aye nay : List String) : String :=
  pyRstripHashSpace (pyJoin " " (pyDedup aye) ++ " " ++ pyJoin " " (pyDedup nay))

/-- The replacement pattern of lines 534 / 561. -/
def BABEL_PAT : String :=
  "#babelfishpg_common #babelfishpg_tsql #babelfishpg_tds #babelfishpg_money"

/-- The per-category collection loop of `gen_ext_list` (lines 522-529) and
`gen_cate_ext_list` (lines 549-556): run `process_ext` over the rows of the
category that pass the `e[REPO_KEY] != 'CONTRIB' and e['lead']` filter and
concatenate the four lists. -/
def collectCate (data : List Row) (ks : PkgClass) (ver distro cate : String) :
    Except PyErr Quad :=
  match mapME (processExt ver distro)
      (data.filter fun e =>
        e.category == cate && extRepo ks e != "CONTRIB" && e.lead) with
  | .error e => .error e
  | .ok quads =>
    .ok ((quads.map fun q => q.1).flatten,
         (quads.map fun q => q.2.1).flatten,
         (quads.map fun q => q.2.2.1).flatten,
         (quads.map fun q => q.2.2.2).flatten)

/-- The body of `gen_cate_ext_list` (lines 547-563) after its dispatch. -/
def genCateExtListWith (ks : PkgClass) (data : List Row)
    (ver distro cate : String) : Except PyErr (List String × List String) :=
  match collectCate data ks ver distro cate with
  | .error e => .error e
  | .ok (pkg_aye, pkg_nay, ext_aye, ext_nay) =>
    .ok ([genEntry pkg_aye pkg_nay],
         [pyReplace (genEntry ext_aye ext_nay) BABEL_PAT "#wiltondb"])

/-- `gen_cate_ext_list` (lines 539-563).  The dispatch tests
`distro.lower()`, but `process_ext` is called with the original `distro`. -/
def genCateExtList (data : List Row) (ver distro cate : String) :
    Except PyErr (List String × List String) :=
  match classifyDistroLower distro with
  | .error e => .error e
  | .ok ks => genCateExtListWith ks data ver distro cate

/-- The body of `gen_ext_list` (lines 519-536) after its dispatch: iterate
over the categories of the catalog (`CATE`, line 352: categories of `DATA`
deduplicated keeping first occurrences) and build one entry pair per
category. -/
def genExtListWith (ks : PkgClass) (data : List Row) (ver distro : String) :
    Except PyErr (List String × List String) :=
  match mapME
      (fun cate =>
        match collectCate data ks ver distro cate with
        | .error e => .error e
        | .ok (pkg_aye, pkg_nay, ext_aye, ext_nay) =>
          .ok (genEntry pkg_aye pkg_nay,
               pyReplace (genEntry ext_aye ext_nay) BABEL_PAT "#wiltondb"))
      (pyDedup (data.map fun e => e.category)) with
  | .error e => .error e
  | .ok pairs => .ok (pairs.map fun p => p.1, pairs.map fun p => p.2)

/-- `gen_ext_list` (lines 511-536).  The dispatch tests `distro.lower()`,
but `process_ext` is called with the original `distro`. -/
def genExtList (data : List Row) (ver distro : String) :
    Except PyErr (List String × List String) :=
  match classifyDistroLower distro with
  | .error e => .error e
  | .ok ks => genExtListWith ks data ver distro

/-! ### The markdown table builder -/

/-- A column descriptor: one entry of the `COLS` dict (lines 109-192). -/
structure Col where
  header : String
  center : Bool
  func : Row → String

/-- Python `'-' * n`. -/
def dashes (n : Nat) : String :=
  String.mk (List.replicate n '-')

/-- `tabulate` (lines 212-221): header line, separator line, then one line
per row of the data table that passes the filter, built by a loop that
`continue`s over rows failing the filter and finally joins everything. -/
def tabulate (data : List Row) (cols : List Col) (filterFunc : Row → Bool) :
    String :=
  let headers := "| " ++ pyJoin " | " (cols.map fun col => col.header) ++ " |\n"
  let separator := "|" ++
    pyJoin "|" (cols.map fun col =>
      if col.center then ":" ++ dashes col.header.length ++ ":"
      else dashes (col.header.length + 2)) ++ "|\n"
  let rows := data.foldl
    (fun acc row =>
      if filterFunc row then
        acc ++ ["| " ++ pyJoin " | " (cols.map fun col => col.func row) ++ " |\n"]
      else acc)
    [headers, separator]
  String.join rows

/-! ### The install-instruction sections of generate_extension -/

/-- Lines 788-811 of `generate_extension`: the value of `install_tmpl` for
one catalog row before the package distro matrix of lines 812-813 is
appended — the Pigsty playbook section, then a dnf section exactly when
`has_rpm`, then an apt section exactly when `has_deb`.  Note that line 803
fills the apt preface with `getcol("rpmrepo", ext)` (the RPM repository)
and line 804 tests `'$v' not in ext['rpm_pkg']` (the RPM package pattern)
to decide the shape of the apt commands. -/
def installSections (ext : Row) : Except PyErr String :=
  let pigstyPreface :=
    "\nInstall `" ++ ext.aliasName ++
    "` via [Pigsty](https://pigsty.io/docs/pgext/usage/install/) playbook:\n\n"
  let pigstyCmd :=
    if ext.name ∉ ["postgis", "citus", "pgaudit"] then
      "```bash\n./pgsql.yml -t pg_extension -e \x27\x7b\"pg_extensions\": [\"" ++
        ext.aliasName ++ "\"]\x7d\x27\n```\n\n"
    else if ext.name = "postgis" then
      "```bash\n./pgsql.yml -t pg_extension -e \x27\x7b\"pg_extensions\": [\"postgis\"]\x7d\x27   # postgis35, common case\n./pgsql.yml -t pg_extension -e \x27\x7b\"pg_extensions\": [\"postgis34\"]\x7d\x27 # pg12 @ el8/9 \n./pgsql.yml -t pg_extension -e \x27\x7b\"pg_extensions\": [\"postgis33\"]\x7d\x27 # el7\n```\n\n"
    else if ext.name = "pgaudit" then
      "```bash\n./pgsql.yml -t pg_extension -e \x27\x7b\"pg_extensions\": [\"pgaudit\"]\x7d\x27   # common case\n./pgsql.yml -t pg_extension -e \x27\x7b\"pg_extensions\": [\"pgaudit17\"]\x7d\x27 # pg15 @ el\n./pgsql.yml -t pg_extension -e \x27\x7b\"pg_extensions\": [\"pgaudit16\"]\x7d\x27 # pg14 @ el\n./pgsql.yml -t pg_extension -e \x27\x7b\"pg_extensions\": [\"pgaudit15\"]\x7d\x27 # pg13 @ el\n./pgsql.yml -t pg_extension -e \x27\x7b\"pg_extensions\": [\"pgaudit14\"]\x7d\x27 # pg12 @ el\n```\n\n"
    else
      "```bash\n./pgsql.yml -t pg_extension -e \x27\x7b\"pg_extensions\": [\"citus\"]\x7d\x27     # common case\n./pgsql.yml -t pg_extension -e \x27\x7b\"pg_extensions\": [\"citus11\"]\x7d\x27   # pg13 @ deb\n./pgsql.yml -t pg_extension -e \x27\x7b\"pg_extensions\": [\"citus10\"]\x7d\x27   # pg12 @ deb\n```\n\n"
  let yumPreface :=
    "\nInstall `" ++ ext.aliasName ++ "` [RPM](/rpm) from the " ++
    repoCol ext.rpm_repo ++ " **YUM** repo:\n\n"
  let yumTmplE : Except PyErr String :=
    if ¬ pyContains ext.rpm_pkg "$v" then
      .ok ("```bash\ndnf install " ++ ext.rpm_pkg ++ ";\n```\n\n")
    else
      match mapME (fun ver =>
          match judgeExt ver "el9" ext with
          | .error e => .error e
          | .ok r => .ok r.1) ext.rpm_pg with
      | .error e => .error e
      | .ok pkgs =>
        .ok ("```bash\n" ++
          pyJoin "\n" (pkgs.map fun pkg => "dnf install " ++ pkg ++ ";") ++
          "\n```\n\n")
  match yumTmplE with
  | .error e => .error e
  | .ok yumTmpl =>
    let aptPreface :=
      "\nInstall `" ++ ext.aliasName ++ "` [DEB](/deb) from the " ++
      repoCol ext.rpm_repo ++ " **APT** repo:\n\n"
    let aptTmplE : Except PyErr String :=
      if ¬ pyContains ext.rpm_pkg "$v" then
        .ok ("```bash\napt install " ++ ext.deb_pkg ++ ";\n```\n\n")
      else
        match mapME (fun ver =>
            match judgeExt ver "u22" ext with
            | .error e => .error e
            | .ok r => .ok r.1) ext.deb_pg with
        | .error e => .error e
        | .ok pkgs =>
          .ok ("```bash\n" ++
            pyJoin "\n" (pkgs.map fun pkg => "apt install " ++ pkg ++ ";") ++
            "\n```\n\n")
    match aptTmplE with
    | .error e => .error e
    | .ok aptTmpl =>
      let installTmpl := pigstyPreface ++ pigstyCmd
      let installTmpl :=
        if ext.has_rpm then installTmpl ++ yumPreface ++ yumTmpl else installTmpl
      let installTmpl :=
        if ext.has_deb then installTmpl ++ aptPreface ++ aptTmpl else installTmpl
      .ok installTmpl

/-! ### Spec-side definition for the deduplication claim -/

/-- Modelled from the spec for C2: remove duplicate names keeping only the
first occurrence of each, the survivors keeping their relative order -- keep
the head and recursively drop later occurrences of it. -/
def specFirstDedup : List String → List String
  | [] => []
  | x :: xs => x :: (specFirstDedup xs).filter (fun y => y ≠ x)

/-! ### Sample rows -/

/-- A plain sample catalog row. -/
def row0 : Row :=
  { name := "demo", aliasName := "demo", category := "FEAT", lead := true,
    rpm_repo := "PGDG", rpm_pkg := "demo_$v*", rpm_pg := ["17", "16"], has_rpm := true,
    deb_repo := "PIGSTY", deb_pkg := "postgresql-$v-demo", deb_pg := ["17"],
    has_deb := true }

/-! ### C1: the distro dispatch -/

lemma rpm_deb_disjoint (d : String) (h1 : d ∈ RPM_DISTROS) (h2 : d ∈ DEB_DISTROS) :
    False := by
  simp only [RPM_DISTROS, List.mem_cons, List.mem_singleton, List.not_mem_nil] at h1
  rcases h1 with h | h | h | h | h
  all_goals first
    | (subst h; exact absurd h2 (by decide))
    | exact h.elim

/-- C1: for every distro string, process_ext, judge_ext, gen_ext_list and
gen_cate_ext_list select the rpm column family exactly when the distro
(lowercased in the two gen functions) is one of 'rpm', 'el7', 'el8', 'el9',
select the deb column family exactly when it is one of 'deb', 'u20', 'u22',
'u24', 'd12', 'd11', and raise ValueError('Invalid distro: <distro>') for
every other distro string. -/
theorem c1_distro_dispatch (data : List Row) (ver distro cate : String) (ext : Row) :
    ((distro ∈ RPM_DISTROS →
        processExt ver distro ext = processExtWith .rpm ver distro ext ∧
        judgeExt ver distro ext = judgeExtWith .rpm ver distro ext) ∧
      (distro ∈ DEB_DISTROS →
        processExt ver distro ext = processExtWith .deb ver distro ext ∧
        judgeExt ver distro ext = judgeExtWith .deb ver distro ext) ∧
      (distro ∉ RPM_DISTROS → distro ∉ DEB_DISTROS →
        processExt ver distro ext = .error (.valueError ("Invalid distro: " ++ distro)) ∧
        judgeExt ver distro ext = .error (.valueError ("Invalid distro: " ++ distro)))) ∧
    ((pyLower distro ∈ RPM_DISTROS →
        genExtList data ver distro = genExtListWith .rpm data ver distro ∧
        genCateExtList data ver distro cate = genCateExtListWith .rpm data ver distro cate) ∧
      (pyLower distro ∈ DEB_DISTROS →
        genExtList data ver distro = genExtListWith .deb data ver distro ∧
        genCateExtList data ver distro cate = genCateExtListWith .deb data ver distro cate) ∧
      (pyLower distro ∉ RPM_DISTROS → pyLower distro ∉ DEB_DISTROS →
        genExtList data ver distro = .error (.valueError ("Invalid distro: " ++ distro)) ∧
        genCateExtList data ver distro cate = .error (.valueError ("Invalid distro: " ++ distro)))) := by
  refine ⟨⟨fun h => ?_, fun h => ?_, fun h1 h2 => ?_⟩,
          fun h => ?_, fun h => ?_, fun h1 h2 => ?_⟩
  · have hc : classifyDistro distro = .ok .rpm := by simp [classifyDistro, h]
    simp [processExt, judgeExt, hc]
  · have hr : distro ∉ RPM_DISTROS := fun hr => rpm_deb_disjoint distro hr h
    have hc : classifyDistro distro = .ok .deb := by simp [classifyDistro, hr, h]
    simp [processExt, judgeExt, hc]
  · have hc : classifyDistro distro = .error (.valueError ("Invalid distro: " ++ distro)) := by
      simp [classifyDistro, h1, h2]
    simp [processExt, judgeExt, hc]
  · have hc : classifyDistroLower distro = .ok .rpm := by simp [classifyDistroLower, h]
    simp [genExtList, genCateExtList, hc]
  · have hr : pyLower distro ∉ RPM_DISTROS := fun hr => rpm_deb_disjoint _ hr h
    have hc : classifyDistroLower distro = .ok .deb := by
      simp [classifyDistroLower, hr, h]
    simp [genExtList, genCateExtList, hc]
  · have hc : classifyDistroLower distro =
        .error (.valueError ("Invalid distro: " ++ distro)) := by
      simp [classifyDistroLower, h1, h2]
    simp [genExtList, genCateExtList, hc]

/-- Witness for C1: the dispatch at concrete distro strings. -/
theorem c1_distro_dispatch_witness :
    (processExt "17" "el9" row0 = processExtWith .rpm "17" "el9" row0) ∧
    (judgeExt "17" "u22" row0 = judgeExtWith .deb "17" "u22" row0) ∧
    (genExtList [row0] "17" "EL8" = genExtListWith .rpm [row0] "17" "EL8") ∧
    (genExtList [row0] "17" "arm" = .error (.valueError "Invalid distro: arm")) := by
  refine ⟨((c1_distro_dispatch [row0] "17" "el9" "FEAT" row0).1.1 (by decide)).1,
         ((c1_distro_dispatch [row0] "17" "u22" "FEAT" row0).1.2.1 (by decide)).2,
         ((c1_distro_dispatch [row0] "17" "EL8" "FEAT" row0).2.1 (by decide)).1,
         ((c1_distro_dispatch [row0] "17" "arm" "FEAT" row0).2.2.2 (by decide) (by decide)).1⟩

/-! ### C3: the derived flags of load_data -/

/-- A raw CSV row with an empty `rpm_repo` and a nonempty `deb_repo`. -/
def c3raw : RawRow :=
  { id := "1", name := "demo", aliasName := "demo", category := "FEAT",
    repo := "PIGSTY", tags := "", schemas := "", pg_ver := "\x7b17,16\x7d",
    requires := "", rpm_deps := "", deb_deps := "", rpm_pg := "",
    deb_pg := "\x7b17\x7d", utility := "f", lead := "t", has_solib := "t",
    need_ddl := "t", need_load := "f", trusted := "", relocatable := "f",
    rpm_repo := "", rpm_pkg := "", deb_repo := "PGDG", deb_pkg := "demo-pkg" }

/-- C3 (code bug at line 255): on a row whose rpm_repo is empty and whose
deb_repo is nonempty, load_data sets has_both to True although the claim
requires both repositories to be nonempty -- the source computes
`True if row['deb_repo'] and row['deb_repo'] else False`, reading deb_repo
twice (compare the "both" statistic of stat_data line 290, which does use
has_rpm and has_deb).  The remaining flags of the claim behave as stated on
this row. -/
theorem c3_has_both_bug :
    (loadRow c3raw).has_both = true ∧ (loadRow c3raw).rpm_repo = "" ∧
    (loadRow c3raw).has_rpm = false ∧ (loadRow c3raw).has_deb = true ∧
    (loadRow c3raw).utility = some false ∧ (loadRow c3raw).lead = some true ∧
    (loadRow c3raw).trusted = none ∧
    (loadRow c3raw).pg17 = true ∧ (loadRow c3raw).pg12 = false := by
  decide

/-! ### C10: parse_array and the array-typed cells -/

/-- A neutral raw row for instantiating per-row conjuncts. -/
def rawRow0 : RawRow :=
  { id := "2", name := "x", aliasName := "x", category := "GIS", repo := "PGDG",
    tags := "\x7ba,b\x7d", schemas := "", pg_ver := "\x7b17\x7d", requires := "",
    rpm_deps := "", deb_deps := "", rpm_pg := "\x7b17\x7d", deb_pg := "",
    utility := "t", lead := "t", has_solib := "f", need_ddl := "t",
    need_load := "f", trusted := "f", relocatable := "t", rpm_repo := "PGDG",
    rpm_pkg := "x_$v", deb_repo := "PGDG", deb_pkg := "x-$v" }

/-- C10: load_data parses an array-typed cell of the form '{...}' into the
list of its comma-separated inner parts, parses the cell '{}' into the
one-element list containing the empty string (not the empty list), turns a
non-empty cell not wrapped in braces into the empty list (silently
discarding its text), and leaves an empty cell as the empty string; this is
applied to all eight array-typed columns. -/
theorem c10_parse_array_cells (v : String) (r : RawRow) :
    (parseArrayField "" = .str "") ∧
    (parseArrayField "\x7b\x7d" = .arr [""]) ∧
    (v ≠ "" → pyStartsWith v "\x7b" = true → pyEndsWith v "\x7d" = true →
      parseArrayField v =
        .arr (pySplitChar (String.mk ((v.data.drop 1).dropLast)) ',')) ∧
    (v ≠ "" → ¬(pyStartsWith v "\x7b" = true ∧ pyEndsWith v "\x7d" = true) →
      parseArrayField v = .arr []) ∧
    (parseArrayField "\x7b12,13\x7d" = .arr ["12", "13"]) ∧
    (parseArrayField "\x7ba\x7d" = .arr ["a"]) ∧
    ((loadRow r).tags = parseArrayField r.tags ∧
     (loadRow r).schemas = parseArrayField r.schemas ∧
     (loadRow r).pg_ver = parseArrayField r.pg_ver ∧
     (loadRow r).requires = parseArrayField r.requires ∧
     (loadRow r).rpm_deps = parseArrayField r.rpm_deps ∧
     (loadRow r).deb_deps = parseArrayField r.deb_deps ∧
     (loadRow r).rpm_pg = parseArrayField r.rpm_pg ∧
     (loadRow r).deb_pg = parseArrayField r.deb_pg) := by
  refine ⟨by decide, by decide, fun h1 h2 h3 => ?_, fun h1 h2 => ?_,
    by decide, by decide, rfl, rfl, rfl, rfl, rfl, rfl, rfl, rfl⟩
  · simp [parseArrayField, parse_array, h1, h2, h3]
  · have hc : (pyStartsWith v "\x7b" && pyEndsWith v "\x7d") = false := by
      rcases Bool.eq_false_or_eq_true (pyStartsWith v "\x7b") with hs | hs
      · rcases Bool.eq_false_or_eq_true (pyEndsWith v "\x7d") with he | he
        · exact absurd ⟨hs, he⟩ h2
        · simp [he]
      · simp [hs]
    simp [parseArrayField, parse_array, h1, hc]

/-- Witness for C10: the bracketed and the non-bracketed case at concrete
cells. -/
theorem c10_parse_array_cells_witness :
    parseArrayField "\x7bx,y\x7d" =
      .arr (pySplitChar (String.mk (("\x7bx,y\x7d".data.drop 1).dropLast)) ',') ∧
    parseArrayField "abc" = .arr [] := by
  refine ⟨(c10_parse_array_cells "\x7bx,y\x7d" rawRow0).2.2.1
            (by decide) (by decide) (by decide),
          (c10_parse_array_cells "abc" rawRow0).2.2.2.1 (by decide) (by decide)⟩

/-! ### C4: the shape of tabulate's output -/

lemma empty_append_str (s : String) : "" ++ s = s := by
  apply String.ext
  rw [String.data_append]
  exact List.nil_append s.data

lemma foldl_filter_append {α β : Type} (p : α → Bool) (f : α → β) :
    ∀ (l : List α) (init : List β),
      l.foldl (fun acc row => if p row then acc ++ [f row] else acc) init =
        init ++ (l.filter p).map f := by
  intro l
  induction l with
  | nil => intro init; simp
  | cons a l ih =>
    intro init
    by_cases h : p a
    · simp [h, ih]
    · simp [h, ih]

lemma foldl_append_str (l : List String) :
    ∀ (x y : String), l.foldl (· ++ ·) (x ++ y) = x ++ l.foldl (· ++ ·) y := by
  induction l with
  | nil => intro x y; rfl
  | cons a l ih =>
    intro x y
    simp only [List.foldl_cons]
    rw [String.append_assoc, ih]

lemma string_join_cons (a : String) (l : List String) :
    String.join (a :: l) = a ++ String.join l := by
  show (a :: l).foldl (· ++ ·) "" = a ++ String.join l
  simp only [List.foldl_cons]
  rw [empty_append_str]
  calc l.foldl (· ++ ·) a = l.foldl (· ++ ·) (a ++ "") := by rw [String.append_empty]
    _ = a ++ l.foldl (· ++ ·) "" := foldl_append_str l a ""
    _ = a ++ String.join l := rfl

lemma string_join_append (a b : List String) :
    String.join (a ++ b) = String.join a ++ String.join b := by
  induction a with
  | nil =>
    show String.join b = String.join [] ++ String.join b
    rw [show String.join ([] : List String) = "" from rfl, empty_append_str]
  | cons x xs ih =>
    rw [List.cons_append, string_join_cons, string_join_cons, ih,
      String.append_assoc]

/-- C4: tabulate returns exactly one header line, then one separator line
whose cell is ':' + dashes + ':' exactly when the column is marked center
and plain dashes (len(header)+2 of them) otherwise, followed by exactly one
formatted line per element of the data table that satisfies the filter, in
table order, each cell produced by applying that column's func to the row;
rows failing the filter contribute nothing. -/
theorem c4_tabulate_shape (data : List Row) (cols : List Col) (p : Row → Bool) :
    tabulate data cols p =
      ("| " ++ pyJoin " | " (cols.map fun col => col.header) ++ " |\n") ++
      ("|" ++ pyJoin "|" (cols.map fun col =>
          if col.center then ":" ++ dashes col.header.length ++ ":"
          else dashes (col.header.length + 2)) ++ "|\n") ++
      String.join ((data.filter p).map fun row =>
        "| " ++ pyJoin " | " (cols.map fun col => col.func row) ++ " |\n") := by
  simp only [tabulate]
  rw [foldl_filter_append]
  simp only [List.cons_append, List.nil_append]
  rw [string_join_cons, string_join_cons]
  simp only [String.append_assoc]

/-! ### C9: which distros reach DISTRO_MISS, and how the functions fail -/

lemma processExt_keyError_iff (ver distro : String) (ext : Row) (ks : PkgClass)
    (hks : classifyDistro distro = .ok ks) (hmiss : DISTRO_MISS distro = none) :
    (processExt ver distro ext = .error (.keyError distro) ↔
      extHas ks ext = true ∧ ver ∈ extPg ks ext) ∧
    (¬(extHas ks ext = true ∧ ver ∈ extPg ks ext) →
      ∃ q, processExt ver distro ext = .ok q) := by
  cases hh : extHas ks ext <;> by_cases hv : ver ∈ extPg ks ext <;>
    simp [processExt, hks, processExtWith, hmiss, hh, hv]

lemma judgeExt_keyError (ver distro : String) (ext : Row) (ks : PkgClass)
    (hks : classifyDistro distro = .ok ks) (hmiss : DISTRO_MISS distro = none) :
    judgeExt ver distro ext = .error (.keyError distro) := by
  simp [judgeExt, hks, judgeExtWith, hmiss]

lemma judgeExt_ok (ver distro : String) (ext : Row) (ks : PkgClass)
    (m : List String) (hks : classifyDistro distro = .ok ks)
    (hmiss : DISTRO_MISS distro = some m) :
    ∃ r, judgeExt ver distro ext = .ok r := by
  have h1 : judgeExt ver distro ext = judgeExtWith ks ver distro ext := by
    unfold judgeExt
    rw [hks]
  rw [h1]
  unfold judgeExtWith
  rw [hmiss]
  exact ⟨_, rfl⟩

lemma mapME_cases {α β ε : Type} (f : α → Except ε β) (e0 : ε) :
    ∀ l : List α, (∀ a ∈ l, (∃ b, f a = .ok b) ∨ f a = .error e0) →
      (∃ bs, mapME f l = .ok bs) ∨ mapME f l = .error e0 := by
  intro l
  induction l with
  | nil => intro _; exact .inl ⟨[], rfl⟩
  | cons a l ih =>
    intro h
    rcases h a (by simp) with ⟨b, hb⟩ | hb
    · rcases ih (fun x hx => h x (by simp [hx])) with ⟨bs, hbs⟩ | hbs
      · exact .inl ⟨b :: bs, by simp [mapME, hb, hbs]⟩
      · exact .inr (by simp [mapME, hb, hbs])
    · exact .inr (by simp [mapME, hb])

lemma mapME_error_iff {α β ε : Type} (f : α → Except ε β) (e0 : ε) :
    ∀ l : List α, (∀ a ∈ l, (∃ b, f a = .ok b) ∨ f a = .error e0) →
      (mapME f l = .error e0 ↔ ∃ a ∈ l, f a = .error e0) := by
  intro l
  induction l with
  | nil => intro _; simp [mapME]
  | cons a l ih =>
    intro h
    have htail := ih (fun x hx => h x (List.mem_cons_of_mem a hx))
    rcases h a (List.mem_cons_self a l) with ⟨b, hb⟩ | hb
    · have hne : ¬ f a = .error e0 := by simp [hb]
      constructor
      · intro hc
        simp only [mapME, hb] at hc
        rcases hx : mapME f l with e | bs
        · rw [hx] at hc
          simp only [Except.error.injEq] at hc
          obtain ⟨x, hx2, hfx⟩ := htail.mp (by rw [hx, hc])
          exact ⟨x, List.mem_cons_of_mem a hx2, hfx⟩
        · rw [hx] at hc
          simp at hc
      · rintro ⟨x, hx, hfx⟩
        rcases List.mem_cons.mp hx with rfl | hx2
        · exact absurd hfx hne
        · have ht : mapME f l = .error e0 := htail.mpr ⟨x, hx2, hfx⟩
          simp [mapME, hb, ht]
    · constructor
      · intro _
        exact ⟨a, List.mem_cons_self a l, hb⟩
      · intro _
        simp [mapME, hb]

lemma mem_pyDedupAux (x : String) :
    ∀ (l seen : List String), x ∈ pyDedupAux seen l ↔ (x ∈ l ∧ x ∉ seen) := by
  intro l
  induction l with
  | nil => intro seen; simp [pyDedupAux]
  | cons a l ih =>
    intro seen
    by_cases ha : a ∈ seen
    · simp only [pyDedupAux, if_pos ha]
      rw [ih]
      constructor
      · exact fun ⟨h1, h2⟩ => ⟨List.mem_cons_of_mem a h1, h2⟩
      · rintro ⟨h1, h2⟩
        rcases List.mem_cons.mp h1 with rfl | h1a
        · exact absurd ha h2
        · exact ⟨h1a, h2⟩
    · simp only [pyDedupAux, if_neg ha]
      constructor
      · intro hmem
        rcases List.mem_cons.mp hmem with rfl | h1a
        · exact ⟨List.mem_cons_self x l, ha⟩
        · obtain ⟨h1, h2⟩ := (ih (a :: seen)).mp h1a
          exact ⟨List.mem_cons_of_mem a h1,
                 fun hs => h2 (List.mem_cons_of_mem a hs)⟩
      · rintro ⟨h1, h2⟩
        rcases List.mem_cons.mp h1 with rfl | h1a
        · exact List.mem_cons_self x _
        · by_cases hxa : x = a
          · exact hxa ▸ List.mem_cons_self a _
          · refine List.mem_cons_of_mem a ((ih (a :: seen)).mpr ⟨h1a, ?_⟩)
            intro hs
            rcases List.mem_cons.mp hs with hh | hh
            · exact hxa hh
            · exact h2 hh

lemma mem_pyDedup (x : String) (l : List String) : x ∈ pyDedup l ↔ x ∈ l := by
  simp [pyDedup, mem_pyDedupAux]

/-- A row whose has_rpm is false, so that line 394 short-circuits before the
DISTRO_MISS lookup. -/
def c9row : Row :=
  { name := "demo9", aliasName := "demo9", category := "FEAT", lead := true,
    rpm_repo := "", rpm_pkg := "demo9pkg", rpm_pg := [], has_rpm := false,
    deb_repo := "PGDG", deb_pkg := "demo9deb", deb_pg := ["17"], has_deb := true }

/-- C9 counterexample: process_ext called with distro 'rpm' -- which is not
a key of DISTRO_MISS -- returns normally on a row whose availability check
short-circuits, contradicting the claim that process_ext returns normally
only when its distro is one of the eight DISTRO_MISS keys. -/
theorem c9_counterexample :
    processExt "17" "rpm" c9row = .ok ([], ["#demo9pkg"], [], ["#demo9"]) ∧
    "rpm" ∉ DISTRO_MISS_KEYS :=
  ⟨rfl, by decide⟩

lemma genExtList_rpm_keyError_iff (data : List Row) (ver : String) :
    genExtList data ver "rpm" = .error (.keyError "rpm") ↔
      ∃ e ∈ data, e.rpm_repo ≠ "CONTRIB" ∧ e.lead = true ∧
        e.has_rpm = true ∧ ver ∈ e.rpm_pg := by
  have hPKE := fun e => processExt_keyError_iff ver "rpm" e .rpm rfl rfl
  have hProcCases : ∀ e : Row, (∃ q, processExt ver "rpm" e = .ok q) ∨
      processExt ver "rpm" e = .error (.keyError "rpm") := by
    intro e
    by_cases hc : (extHas .rpm e = true ∧ ver ∈ extPg .rpm e)
    · exact .inr ((hPKE e).1.mpr hc)
    · exact .inl ((hPKE e).2 hc)
  have hCollectErr : ∀ cate,
      collectCate data .rpm ver "rpm" cate = .error (.keyError "rpm") ↔
      ∃ e ∈ data.filter (fun e =>
          e.category == cate && extRepo .rpm e != "CONTRIB" && e.lead),
        processExt ver "rpm" e = .error (.keyError "rpm") := by
    intro cate
    have hm := mapME_error_iff (processExt ver "rpm") (.keyError "rpm")
      (data.filter (fun e =>
        e.category == cate && extRepo .rpm e != "CONTRIB" && e.lead))
      (fun a _ => hProcCases a)
    rw [← hm]
    unfold collectCate
    rcases hx : mapME (processExt ver "rpm") (data.filter (fun e =>
        e.category == cate && extRepo .rpm e != "CONTRIB" && e.lead)) with e | quads
    · simp [hx]
    · simp [hx]
  have hCollectCases : ∀ cate,
      (∃ r, collectCate data .rpm ver "rpm" cate = .ok r) ∨
      collectCate data .rpm ver "rpm" cate = .error (.keyError "rpm") := by
    intro cate
    have hmc := mapME_cases (processExt ver "rpm") (.keyError "rpm")
      (data.filter (fun e =>
        e.category == cate && extRepo .rpm e != "CONTRIB" && e.lead))
      (fun a _ => hProcCases a)
    unfold collectCate
    rcases hmc with ⟨bs, hbs⟩ | hbs
    · rw [hbs]
      exact .inl ⟨_, rfl⟩
    · rw [hbs]
      exact .inr rfl
  have hGCases : ∀ cate : String,
      (∃ r, (match collectCate data .rpm ver "rpm" cate with
        | .error e => .error e
        | .ok (pkg_aye, pkg_nay, ext_aye, ext_nay) =>
          .ok (genEntry pkg_aye pkg_nay,
               pyReplace (genEntry ext_aye ext_nay) BABEL_PAT "#wiltondb")) =
        Except.ok r) ∨
      (match collectCate data .rpm ver "rpm" cate with
        | .error e => .error e
        | .ok (pkg_aye, pkg_nay, ext_aye, ext_nay) =>
          .ok (genEntry pkg_aye pkg_nay,
               pyReplace (genEntry ext_aye ext_nay) BABEL_PAT "#wiltondb")) =
        Except.error (.keyError "rpm") := by
    intro cate
    rcases hCollectCases cate with ⟨⟨pa, pn, ea, en⟩, hr⟩ | hr
    · rw [hr]
      exact .inl ⟨_, rfl⟩
    · rw [hr]
      exact .inr rfl
  have hGErr : ∀ cate : String,
      (match collectCate data .rpm ver "rpm" cate with
        | .error e => .error e
        | .ok (pkg_aye, pkg_nay, ext_aye, ext_nay) =>
          .ok (genEntry pkg_aye pkg_nay,
               pyReplace (genEntry ext_aye ext_nay) BABEL_PAT "#wiltondb")) =
        Except.error (.keyError "rpm") ↔
      collectCate data .rpm ver "rpm" cate = .error (.keyError "rpm") := by
    intro cate
    rcases hCollectCases cate with ⟨⟨pa, pn, ea, en⟩, hr⟩ | hr
    · rw [hr]
      simp
    · rw [hr]
      simp
  have hmapg := mapME_error_iff
    (fun cate =>
      match collectCate data .rpm ver "rpm" cate with
      | .error e => .error e
      | .ok (pkg_aye, pkg_nay, ext_aye, ext_nay) =>
        .ok (genEntry pkg_aye pkg_nay,
             pyReplace (genEntry ext_aye ext_nay) BABEL_PAT "#wiltondb"))
    (.keyError "rpm") (pyDedup (data.map fun e => e.category))
    (fun a _ => hGCases a)
  have hTop : genExtList data ver "rpm" = .error (.keyError "rpm") ↔
      mapME (fun cate =>
        match collectCate data .rpm ver "rpm" cate with
        | .error e => .error e
        | .ok (pkg_aye, pkg_nay, ext_aye, ext_nay) =>
          .ok (genEntry pkg_aye pkg_nay,
               pyReplace (genEntry ext_aye ext_nay) BABEL_PAT "#wiltondb"))
        (pyDedup (data.map fun e => e.category)) = .error (.keyError "rpm") := by
    show genExtListWith .rpm data ver "rpm" = _ ↔ _
    unfold genExtListWith
    rcases hx : mapME (fun cate =>
        match collectCate data .rpm ver "rpm" cate with
        | .error e => .error e
        | .ok (pkg_aye, pkg_nay, ext_aye, ext_nay) =>
          .ok (genEntry pkg_aye pkg_nay,
               pyReplace (genEntry ext_aye ext_nay) BABEL_PAT "#wiltondb"))
        (pyDedup (data.map fun e => e.category)) with e | pairs
    · simp [hx]
    · simp [hx]
  rw [hTop, hmapg]
  constructor
  · rintro ⟨cate, hcate, hgc⟩
    have hcoll := (hGErr cate).mp hgc
    obtain ⟨e, hef, herr⟩ := (hCollectErr cate).mp hcoll
    obtain ⟨he, hb⟩ := List.mem_filter.mp hef
    have hreach := (hPKE e).1.mp herr
    simp only [Bool.and_eq_true, bne_iff_ne, beq_iff_eq] at hb
    exact ⟨e, he, hb.1.2, hb.2, hreach.1, hreach.2⟩
  · rintro ⟨e, he, hrepo, hlead, hhas, hver⟩
    refine ⟨e.category, (mem_pyDedup _ _).mpr (List.mem_map_of_mem _ he), ?_⟩
    rw [hGErr, hCollectErr]
    refine ⟨e, List.mem_filter.mpr ⟨he, ?_⟩, (hPKE e).1.mpr ⟨hhas, hver⟩⟩
    simp only [Bool.and_eq_true, bne_iff_ne, beq_iff_eq]
    exact ⟨⟨trivial, hrepo⟩, hlead⟩

/-- C9 corrected: judge_ext returns normally exactly for the eight
DISTRO_MISS keys and raises KeyError for the dispatch-accepted non-keys
'rpm' and 'deb'; process_ext with 'rpm'/'deb' raises KeyError exactly when
the extension is available with ver in its version list (otherwise the
short-circuit evaluation of line 394 skips the DISTRO_MISS lookup and it
returns normally); and gen_ext_list with distro 'rpm' fails with KeyError
exactly when some row passing its filter reaches the lookup. -/
theorem c9_distro_miss_amended (data : List Row) (ver distro : String) (ext : Row) :
    (judgeExt ver "rpm" ext = .error (.keyError "rpm")) ∧
    (judgeExt ver "deb" ext = .error (.keyError "deb")) ∧
    (distro ∈ DISTRO_MISS_KEYS → ∃ r, judgeExt ver distro ext = .ok r) ∧
    (processExt ver "rpm" ext = .error (.keyError "rpm") ↔
      ext.has_rpm = true ∧ ver ∈ ext.rpm_pg) ∧
    (¬(ext.has_rpm = true ∧ ver ∈ ext.rpm_pg) →
      ∃ q, processExt ver "rpm" ext = .ok q) ∧
    (processExt ver "deb" ext = .error (.keyError "deb") ↔
      ext.has_deb = true ∧ ver ∈ ext.deb_pg) ∧
    (genExtList data ver "rpm" = .error (.keyError "rpm") ↔
      ∃ e ∈ data, e.rpm_repo ≠ "CONTRIB" ∧ e.lead = true ∧
        e.has_rpm = true ∧ ver ∈ e.rpm_pg) := by
  refine ⟨judgeExt_keyError ver "rpm" ext .rpm rfl rfl,
          judgeExt_keyError ver "deb" ext .deb rfl rfl,
          fun h => ?_,
          (processExt_keyError_iff ver "rpm" ext .rpm rfl rfl).1,
          (processExt_keyError_iff ver "rpm" ext .rpm rfl rfl).2,
          (processExt_keyError_iff ver "deb" ext .deb rfl rfl).1,
          genExtList_rpm_keyError_iff data ver⟩
  simp only [DISTRO_MISS_KEYS, List.mem_cons, List.not_mem_nil, or_false] at h
  rcases h with rfl | rfl | rfl | rfl | rfl | rfl | rfl | rfl
  · exact judgeExt_ok ver "el7" ext .rpm _ rfl rfl
  · exact judgeExt_ok ver "el8" ext .rpm _ rfl rfl
  · exact judgeExt_ok ver "el9" ext .rpm _ rfl rfl
  · exact judgeExt_ok ver "u24" ext .deb _ rfl rfl
  · exact judgeExt_ok ver "u22" ext .deb _ rfl rfl
  · exact judgeExt_ok ver "u20" ext .deb _ rfl rfl
  · exact judgeExt_ok ver "d12" ext .deb _ rfl rfl
  · exact judgeExt_ok ver "d11" ext .deb _ rfl rfl

/-- Witness for C9's amended theorem at concrete inputs. -/
theorem c9_distro_miss_amended_witness :
    (∃ r, judgeExt "17" "el8" row0 = .ok r) ∧
    genExtList [row0] "17" "rpm" = .error (.keyError "rpm") := by
  refine ⟨(c9_distro_miss_amended [row0] "17" "el8" row0).2.2.1 (by decide), ?_⟩
  exact (c9_distro_miss_amended [row0] "17" "el8" row0).2.2.2.2.2.2.mpr
    ⟨row0, List.mem_singleton_self row0, by decide, rfl, rfl, by decide⟩

/-! ### C8: agreement of judge_ext and process_ext -/

/-- A row whose alias is in HIDE_LIST (pgpool). -/
def c8row : Row :=
  { name := "pgpool", aliasName := "pgpool", category := "ADMIN", lead := true,
    rpm_repo := "PIGSTY", rpm_pkg := "pgpool-II-$v", rpm_pg := ["17", "16"],
    has_rpm := true, deb_repo := "PIGSTY", deb_pkg := "pgpool2",
    deb_pg := ["17"], has_deb := true }

/-- C8 counterexample: for version '17' of PG_VERS and distro 'el8' of
DISTROS, judge_ext reports the pgpool row available while process_ext emits
its package only commented in pkg_nay and never uncommented in pkg_aye --
HIDE_LIST is consulted by process_ext but not by judge_ext. -/
theorem c8_counterexample :
    judgeExt "17" "el8" c8row = .ok ("pgpool-II-17", "pgpool", true) ∧
    processExt "17" "el8" c8row = .ok ([], ["#pgpool-II-17"], [], ["#pgpool"]) ∧
    "17" ∈ PG_VERS ∧ "el8" ∈ DISTROS :=
  ⟨rfl, rfl, by decide, by decide⟩

/-- Evaluation of judge_ext's body when the DISTRO_MISS lookup succeeds and
the name is not a babelfish extension: package and extension are the
renameCases results and avail is the chain of availability checks of lines
459-478. -/
lemma judgeExtWith_eval (ks : PkgClass) (ver distro : String) (ext : Row)
    (m : List String) (hmiss : DISTRO_MISS distro = some m)
    (hbab : pyStartsWith ext.name "babelfishpg" = false) :
    judgeExtWith ks ver distro ext =
      .ok ((renameCases ver distro ext.name ext.aliasName
              (pyReplace (extPkg ks ext) "$v" ver) ext.aliasName).1,
           (renameCases ver distro ext.name ext.aliasName
              (pyReplace (extPkg ks ext) "$v" ver) ext.aliasName).2,
           if distro = "u24" ∧ ext.name ∈ ["pg_partman", "timeseries"] ∧
               ver ∈ ["12", "13"] then false
           else if distro = "u24" ∧ ext.name = "timescaledb" ∧ ver = "12" then false
           else if ext.name ∈ m then false
           else decide (ver ∈ extPg ks ext)) := by
  have hb2 : pyStartsWith "timescaledb" "babelfishpg" = false := by decide
  unfold judgeExtWith
  rw [hmiss]
  by_cases hnm : ext.name ∈ m <;>
    by_cases hu1 : distro = "u24" ∧ ext.name = "timescaledb" ∧ ver = "12" <;>
    by_cases hu2 : distro = "u24" ∧ ext.name ∈ ["pg_partman", "timeseries"] ∧
      ver ∈ ["12", "13"] <;>
    simp [hnm, hu1, hu2, hbab, hb2, THROW_LIST]

/-- The package components of process_ext's result when the DISTRO_MISS
lookup succeeds, the HAS flag is true, the alias is not in HIDE_LIST and
the name is not a babelfish extension: the renamed package lands
uncommented in pkg_aye exactly when the availability chain holds, else
commented in pkg_nay. -/
lemma processExtWith_pkg (ks : PkgClass) (ver distro : String) (ext : Row)
    (m : List String) (hmiss : DISTRO_MISS distro = some m)
    (hhas : extHas ks ext = true)
    (hhide : ext.aliasName ∉ HIDE_LIST)
    (hbab : pyStartsWith ext.name "babelfishpg" = false)
    (hn1 : ext.name ≠ "babelfishpg_common")
    (hn2 : ext.name ≠ "babelfishpg_tsql")
    (hn3 : ext.name ≠ "babelfishpg_tds")
    (hn4 : ext.name ≠ "babelfishpg_money") :
    Except.map (fun q : Quad => (q.1, q.2.1)) (processExtWith ks ver distro ext) =
      .ok (if (if distro = "u24" ∧ ext.name ∈ ["pg_partman", "timeseries"] ∧
                  ver ∈ ["12", "13"] then false
               else if distro = "u24" ∧ ext.name = "timescaledb" ∧ ver = "12" then false
               else if ext.name ∈ m then false
               else decide (ver ∈ extPg ks ext)) = true then
             ([(renameCases ver distro ext.name ext.aliasName
                  (pyReplace (extPkg ks ext) "$v" ver) ext.aliasName).1], [])
           else
             ([], ["#" ++ (renameCases ver distro ext.name ext.aliasName
                  (pyReplace (extPkg ks ext) "$v" ver) ext.aliasName).1])) := by
  have hb2 : pyStartsWith "timescaledb" "babelfishpg" = false := by decide
  have hb3 : ("timescaledb" : String) ≠ "babelfishpg_common" := by decide
  have hb4 : ("timescaledb" : String) ≠ "babelfishpg_tsql" := by decide
  have hb5 : ("timescaledb" : String) ≠ "babelfishpg_tds" := by decide
  have hb6 : ("timescaledb" : String) ≠ "babelfishpg_money" := by decide
  have hb7 : pyStartsWith "timescaledb" "hunspell" = false := by decide
  unfold processExtWith
  rw [hmiss, hhas]
  by_cases hvp : ver ∈ extPg ks ext <;>
    by_cases hnm : ext.name ∈ m <;>
    by_cases hu1 : distro = "u24" ∧ ext.name = "timescaledb" ∧ ver = "12" <;>
    by_cases hu2 : distro = "u24" ∧ ext.name ∈ ["pg_partman", "timeseries"] ∧
      ver ∈ ["12", "13"] <;>
    (try simp_all [THROW_LIST, Except.map, ayeNay])
  all_goals (split_ifs <;> (try simp_all) <;> tauto)

lemma except_map_pkg_inv (x : Except PyErr Quad) (p : List String × List String)
    (h : Except.map (fun q : Quad => (q.1, q.2.1)) x = .ok p) :
    ∃ ea en, x = .ok (p.1, p.2, ea, en) := by
  rcases x with e | ⟨pa, pn, ea, en⟩
  · simp [Except.map] at h
  · simp [Except.map] at h
    exact ⟨ea, en, by rw [← h]⟩

/-- C8 corrected: for every version of PG_VERS, every distro of DISTROS and
every row whose selected HAS flag is true, whose alias is not in HIDE_LIST
and whose name does not start with 'babelfishpg', judge_ext and process_ext
both return normally, judge_ext's avail is True exactly when process_ext
emits the (identically renamed) package uncommented as pkg_aye = [package],
and when avail is False the same package appears commented in pkg_nay. -/
theorem c8_judge_process_agree (ver distro : String) (ext : Row) (ks : PkgClass)
    (hd : distro ∈ DISTROS) (hv : ver ∈ PG_VERS)
    (hks : classifyDistro distro = .ok ks)
    (hhas : extHas ks ext = true)
    (hhide : ext.aliasName ∉ HIDE_LIST)
    (hbab : pyStartsWith ext.name "babelfishpg" = false) :
    ∃ pkg extn av pa pn ea en,
      judgeExt ver distro ext = .ok (pkg, extn, av) ∧
      processExt ver distro ext = .ok (pa, pn, ea, en) ∧
      (av = true ↔ pa = [pkg]) ∧
      (av = false → pa = [] ∧ pn = ["#" ++ pkg]) := by
  obtain ⟨m, hmiss⟩ : ∃ m, DISTRO_MISS distro = some m := by
    fin_cases hd <;> exact ⟨_, rfl⟩
  have hn1 : ext.name ≠ "babelfishpg_common" := by
    intro h; rw [h] at hbab; exact absurd hbab (by decide)
  have hn2 : ext.name ≠ "babelfishpg_tsql" := by
    intro h; rw [h] at hbab; exact absurd hbab (by decide)
  have hn3 : ext.name ≠ "babelfishpg_tds" := by
    intro h; rw [h] at hbab; exact absurd hbab (by decide)
  have hn4 : ext.name ≠ "babelfishpg_money" := by
    intro h; rw [h] at hbab; exact absurd hbab (by decide)
  have hJ := judgeExtWith_eval ks ver distro ext m hmiss hbab
  have hP := processExtWith_pkg ks ver distro ext m hmiss hhas hhide hbab hn1 hn2 hn3 hn4
  obtain ⟨ea, en, hP2⟩ := except_map_pkg_inv _ _ hP
  have hproc : processExt ver distro ext = processExtWith ks ver distro ext := by
    unfold processExt; rw [hks]
  have hjudge : judgeExt ver distro ext = judgeExtWith ks ver distro ext := by
    unfold judgeExt; rw [hks]
  set B := (if distro = "u24" ∧ ext.name ∈ ["pg_partman", "timeseries"] ∧
        ver ∈ ["12", "13"] then false
      else if distro = "u24" ∧ ext.name = "timescaledb" ∧ ver = "12" then false
      else if ext.name ∈ m then false
      else decide (ver ∈ extPg ks ext)) with hBdef
  refine ⟨_, _, _, _, _, ea, en, by rw [hjudge, hJ], by rw [hproc, hP2], ?_, ?_⟩
  · cases hB : B with
    | true => simp [hB]
    | false => simp [hB]
  · intro hfalse
    simp [hfalse]

/-- Witness for C8's amended theorem at a concrete row. -/
theorem c8_judge_process_agree_witness :
    ∃ pkg extn av pa pn ea en,
      judgeExt "17" "el8" row0 = .ok (pkg, extn, av) ∧
      processExt "17" "el8" row0 = .ok (pa, pn, ea, en) ∧
      (av = true ↔ pa = [pkg]) ∧
      (av = false → pa = [] ∧ pn = ["#" ++ pkg]) :=
  c8_judge_process_agree "17" "el8" row0 .rpm (by decide) (by decide) rfl rfl
    (by decide) (by decide)

/-! ### C6: the install-instruction sections -/

/-- A row whose rpm_pkg has no '$v' but whose deb_pkg does, and whose RPM
and DEB repositories differ. -/
def c6row : Row :=
  { name := "demo6", aliasName := "demo6", category := "FEAT", lead := true,
    rpm_repo := "PGDG", rpm_pkg := "demo6pkg", rpm_pg := ["17"], has_rpm := true,
    deb_repo := "PIGSTY", deb_pkg := "demo6-$v", deb_pg := ["17", "16"],
    has_deb := true }

set_option maxRecDepth 20000 in
/-- C6 (code bug, lines 803-804): on a row whose rpm_pkg contains no '$v'
but whose deb_pkg does, generate_extension emits a single literal
`apt install demo6-$v;` line -- line 804 tests `'$v' not in ext['rpm_pkg']`
instead of the DEB package pattern, so the claimed one-line-per-deb_pg-version
expansion never happens -- and the apt preface names the colored RPM
repository (PGDG) although the row's DEB repository is PIGSTY, because line
803 interpolates `getcol("rpmrepo", ext)`.  The dnf section appears because
has_rpm is true and the apt section because has_deb is true, as the claim
states. -/
theorem c6_install_sections_bug :
    installSections c6row =
      .ok ("\nInstall `demo6` via [Pigsty](https://pigsty.io/docs/pgext/usage/install/) playbook:\n\n```bash\n./pgsql.yml -t pg_extension -e \x27\x7b\"pg_extensions\": [\"demo6\"]\x7d\x27\n```\n\n\nInstall `demo6` [RPM](/rpm) from the **<span class=\"tccyan\">PGDG</span>** **YUM** repo:\n\n```bash\ndnf install demo6pkg;\n```\n\n\nInstall `demo6` [DEB](/deb) from the **<span class=\"tccyan\">PGDG</span>** **APT** repo:\n\n```bash\napt install demo6-$v;\n```\n\n") ∧
    pyContains c6row.deb_pkg "$v" = true ∧
    c6row.deb_repo = "PIGSTY" ∧ c6row.rpm_repo = "PGDG" :=
  ⟨rfl, by decide, rfl, rfl⟩

/-! ### C2: deduplication in the generated entries -/
lemma pyDedupAux_eq_spec (l : List String) :
    ∀ seen : List String,
      pyDedupAux seen l = (specFirstDedup l).filter (fun y => y ∉ seen) := by
  induction l with
  | nil => intro seen; simp [pyDedupAux, specFirstDedup]
  | cons x xs ih =>
    intro seen
    by_cases hx : x ∈ seen
    · simp only [pyDedupAux, if_pos hx, specFirstDedup, List.filter_cons]
      have hxd : decide (x ∉ seen) = false := by simp [hx]
      rw [hxd]
      simp only [Bool.false_eq_true, if_false]
      rw [ih, List.filter_filter]
      refine List.filter_congr ?_
      intro y _
      by_cases hy : y ∈ seen
      · simp [hy]
      · have : y ≠ x := fun h => hy (h ▸ hx)
        simp [hy, this]
    · simp only [pyDedupAux, if_neg hx, specFirstDedup, List.filter_cons]
      have hxd : decide (x ∉ seen) = true := by simp [hx]
      rw [hxd]
      simp only [if_true]
      rw [ih, List.filter_filter]
      refine congrArg (x :: ·) (List.filter_congr ?_)
      intro y _
      by_cases hy : y = x
      · simp [hy]
      · by_cases hs : y ∈ seen
        · simp [hy, hs]
        · simp [hy, hs]

lemma pyDedup_eq_spec (l : List String) : pyDedup l = specFirstDedup l := by
  rw [pyDedup, pyDedupAux_eq_spec]
  refine List.filter_eq_self.mpr ?_
  intro y _
  simp

lemma specFirstDedup_sublist (l : List String) : (specFirstDedup l).Sublist l := by
  induction l with
  | nil => simp [specFirstDedup]
  | cons x xs ih =>
    simp only [specFirstDedup]
    exact List.Sublist.cons₂ x (List.Sublist.trans (List.filter_sublist _) ih)

lemma mem_specFirstDedup (y : String) (l : List String) :
    y ∈ specFirstDedup l ↔ y ∈ l := by
  induction l with
  | nil => simp [specFirstDedup]
  | cons x xs ih =>
    simp only [specFirstDedup, List.mem_cons, List.mem_filter, ih]
    by_cases hy : y = x
    · simp [hy]
    · simp [hy, ih]

lemma specFirstDedup_nodup (l : List String) : (specFirstDedup l).Nodup := by
  induction l with
  | nil => simp [specFirstDedup]
  | cons x xs ih =>
    simp only [specFirstDedup]
    refine List.Nodup.cons ?_ (List.Nodup.filter _ ih)
    intro hmem
    rcases List.mem_filter.mp hmem with ⟨_, hne⟩
    simp at hne

/-- The last character of the token survives rstrip('# '). -/
def goodTail (x : String) : Bool :=
  match x.data.getLast? with
  | none => false
  | some c => !(c == '#' || c == ' ')

/-- The token carries the '#' comment marker. -/
def commented (x : String) : Bool :=
  x.data.head? == some '#'

lemma commented_hash (p : String) : commented ("#" ++ p) = true := by
  simp [commented, String.data_append]

lemma pyJoin_append (sep : String) (a b : List String) (ha : a ≠ []) (hb : b ≠ []) :
    pyJoin sep (a ++ b) = pyJoin sep a ++ sep ++ pyJoin sep b := by
  induction a with
  | nil => exact absurd rfl ha
  | cons x xs ih =>
    cases xs with
    | nil =>
      cases b with
      | nil => exact absurd rfl hb
      | cons y ys => simp [pyJoin]
    | cons z zs =>
      have hih := ih (by simp)
      show x ++ sep ++ pyJoin sep ((z :: zs) ++ b) = _
      rw [hih]
      have heq : pyJoin sep (x :: z :: zs) = x ++ sep ++ pyJoin sep (z :: zs) := rfl
      rw [heq]
      simp [String.append_assoc]

lemma goodTail_append (s t : String) (ht : goodTail t = true) :
    goodTail (s ++ t) = true := by
  unfold goodTail at *
  rcases hc : t.data.getLast? with _ | c
  · rw [hc] at ht; cases ht
  · have htne : t.data ≠ [] := by
      intro h
      rw [h] at hc
      cases hc
    rw [String.data_append, List.getLast?_append_of_ne_nil s.data htne, hc]
    rw [hc] at ht
    exact ht

lemma goodTail_pyJoin (sep : String) (l : List String) (hl : l ≠ [])
    (h : ∀ x ∈ l, goodTail x = true) : goodTail (pyJoin sep l) = true := by
  induction l with
  | nil => exact absurd rfl hl
  | cons x xs ih =>
    cases xs with
    | nil => exact h x (by simp)
    | cons y ys =>
      have hih := ih (by simp) (fun z hz => h z (List.mem_cons_of_mem x hz))
      rw [pyJoin]
      exact goodTail_append (x ++ sep) (pyJoin sep (y :: ys)) hih

lemma pyRstrip_append_goodTail (s t : String) (ht : goodTail t = true) :
    pyRstripHashSpace (s ++ t) = s ++ t := by
  unfold goodTail at ht
  rcases hc : t.data.getLast? with _ | c
  · rw [hc] at ht; cases ht
  · rw [hc] at ht
    apply String.ext
    show ((s ++ t).data.reverse.dropWhile fun ch => ch == '#' || ch == ' ').reverse = _
    have hrev : (s ++ t).data.reverse = t.data.reverse ++ s.data.reverse := by
      rw [String.data_append, List.reverse_append]
    rcases hr : t.data.reverse with _ | ⟨c2, r⟩
    · have : t.data = [] := by
        have := congrArg List.reverse hr
        simpa using this
      rw [this] at hc
      cases hc
    · have hc2 : c2 = c := by
        have h1 : t.data.reverse.head? = some c2 := by rw [hr]; rfl
        rw [List.head?_reverse, hc] at h1
        exact (Option.some.inj h1).symm
      rw [← hc2] at ht
      have ht2 : (c2 == '#' || c2 == ' ') = false := by
        have ht3 : (!(c2 == '#' || c2 == ' ')) = true := ht
        simpa using ht3
      rw [hrev, hr, List.cons_append, List.dropWhile_cons, ht2]
      simp only [Bool.false_eq_true, if_false]
      rw [← List.cons_append, ← hr, ← hrev, List.reverse_reverse]

lemma pyRstrip_append_space (s : String) :
    pyRstripHashSpace (s ++ " ") = pyRstripHashSpace s := by
  apply String.ext
  show ((s ++ " ").data.reverse.dropWhile fun ch => ch == '#' || ch == ' ').reverse = _
  have hx : (s ++ " ").data.reverse = ' ' :: s.data.reverse := by
    rw [String.data_append, List.reverse_append]
    rfl
  rw [hx, List.dropWhile_cons]
  simp only [show ((' ' == '#' || ' ' == ' ') = true) = True from by simp, if_true]
  rfl

lemma pyDedup_ne_nil (l : List String) (h : l ≠ []) : pyDedup l ≠ [] := by
  intro hc
  cases l with
  | nil => exact h rfl
  | cons x xs =>
    rw [pyDedup] at hc
    simp only [pyDedupAux] at hc
    rw [if_neg (List.not_mem_nil x)] at hc
    cases hc

lemma genEntry_eq (aye nay : List String)
    (ha : ∀ x ∈ aye, goodTail x = true) (hn : ∀ x ∈ nay, goodTail x = true)
    (hane : aye ≠ []) :
    genEntry aye nay = pyJoin " " (pyDedup aye ++ pyDedup nay) := by
  unfold genEntry
  have hA : pyDedup aye ≠ [] := pyDedup_ne_nil aye hane
  have hAgood : ∀ x ∈ pyDedup aye, goodTail x = true := fun x hx =>
    ha x ((mem_pyDedup x aye).mp hx)
  have hNgood : ∀ x ∈ pyDedup nay, goodTail x = true := fun x hx =>
    hn x ((mem_pyDedup x nay).mp hx)
  have hjA : goodTail (pyJoin " " (pyDedup aye)) = true :=
    goodTail_pyJoin " " (pyDedup aye) hA hAgood
  by_cases hN : pyDedup nay = []
  · rw [hN, show pyJoin " " ([] : List String) = "" from rfl, String.append_empty,
      pyRstrip_append_space, List.append_nil]
    have h2 := pyRstrip_append_goodTail "" (pyJoin " " (pyDedup aye)) hjA
    rwa [empty_append_str] at h2
  · rw [pyJoin_append " " (pyDedup aye) (pyDedup nay) hA hN]
    have hjN : goodTail (pyJoin " " (pyDedup nay)) = true :=
      goodTail_pyJoin " " (pyDedup nay) hN hNgood
    have h2 := pyRstrip_append_goodTail (pyJoin " " (pyDedup aye) ++ " ")
      (pyJoin " " (pyDedup nay)) hjN
    simpa [String.append_assoc] using h2

/-- The shape of a joined entry: the deduplicated uncommented names first,
then the deduplicated '#'-commented names; when there is no uncommented
name, the joining space of lines 531/558 survives rstrip('# ') as a leading
space, and an entry with no names at all is the empty string. -/
def specEntryJoin (a n : List String) : String :=
  if a = [] then (if n = [] then "" else " " ++ pyJoin " " n)
  else pyJoin " " (a ++ n)

lemma genEntry_eq_full (aye nay : List String)
    (ha : ∀ x ∈ aye, goodTail x = true) (hn : ∀ x ∈ nay, goodTail x = true) :
    genEntry aye nay = specEntryJoin (pyDedup aye) (pyDedup nay) := by
  have hNgood : ∀ x ∈ pyDedup nay, goodTail x = true := fun x hx =>
    hn x ((mem_pyDedup x nay).mp hx)
  by_cases haye : aye = []
  · subst haye
    by_cases hN : pyDedup nay = []
    · have hnay : nay = [] := by
        by_contra hc
        exact pyDedup_ne_nil nay hc hN
      subst hnay
      decide
    · show pyRstripHashSpace
        (pyJoin " " (pyDedup []) ++ " " ++ pyJoin " " (pyDedup nay)) = _
      rw [show pyDedup ([] : List String) = [] from rfl,
        show pyJoin " " ([] : List String) = "" from rfl, empty_append_str]
      have hjN : goodTail (pyJoin " " (pyDedup nay)) = true :=
        goodTail_pyJoin " " (pyDedup nay) hN hNgood
      rw [pyRstrip_append_goodTail " " (pyJoin " " (pyDedup nay)) hjN]
      simp [specEntryJoin, hN]
  · have hA : pyDedup aye ≠ [] := pyDedup_ne_nil aye haye
    rw [genEntry_eq aye nay ha hn haye]
    simp [specEntryJoin, hA]

lemma mapME_ok_mem {α β ε : Type} (f : α → Except ε β) :
    ∀ (l : List α) (bs : List β), mapME f l = .ok bs →
      ∀ b ∈ bs, ∃ a ∈ l, f a = .ok b := by
  intro l
  induction l with
  | nil =>
    intro bs h b hb
    simp only [mapME, Except.ok.injEq] at h
    rw [← h] at hb
    cases hb
  | cons a l ih =>
    intro bs h b hb
    rcases hfa : f a with e | b0
    · simp [mapME, hfa] at h
    · rcases hml : mapME f l with e | bs0
      · simp [mapME, hfa, hml] at h
      · simp only [mapME, hfa, hml, Except.ok.injEq] at h
        rw [← h] at hb
        rcases List.mem_cons.mp hb with rfl | hb2
        · exact ⟨a, List.mem_cons_self a l, hfa⟩
        · obtain ⟨a2, ha2, hfa2⟩ := ih bs0 hml b hb2
          exact ⟨a2, List.mem_cons_of_mem a ha2, hfa2⟩

lemma mapME_ok_forallTwo {α β ε : Type} (f : α → Except ε β) :
    ∀ (l : List α) (bs : List β), mapME f l = .ok bs →
      List.Forall₂ (fun a b => f a = .ok b) l bs := by
  intro l
  induction l with
  | nil =>
    intro bs h
    simp only [mapME, Except.ok.injEq] at h
    rw [← h]
    exact List.Forall₂.nil
  | cons a l ih =>
    intro bs h
    rcases hfa : f a with e | b0
    · simp [mapME, hfa] at h
    · rcases hml : mapME f l with e | bs0
      · simp [mapME, hfa, hml] at h
      · simp only [mapME, hfa, hml, Except.ok.injEq] at h
        rw [← h]
        exact List.Forall₂.cons hfa (ih bs0 hml)

lemma ayeNay_nay_commented (d hd : Bool) (t : String) :
    ∀ x ∈ (ayeNay d hd t).2, commented x = true := by
  intro x hx
  unfold ayeNay at hx
  split at hx
  · cases hx
  · split at hx
    · rcases List.mem_cons.mp hx with rfl | h2
      · exact commented_hash _
      · cases h2
    · cases hx

lemma processExtWith_shape (ks : PkgClass) (ver distro : String) (ext : Row) :
    (∃ e, processExtWith ks ver distro ext = .error e) ∨
    (∃ dp hp de he p t, processExtWith ks ver distro ext =
      .ok ((ayeNay dp hp p).1, (ayeNay dp hp p).2,
           (ayeNay de he t).1, (ayeNay de he t).2)) := by
  unfold processExtWith
  rcases hd : DISTRO_MISS distro with _ | m <;>
    cases hh : extHas ks ext <;>
    by_cases hv : ver ∈ extPg ks ext <;>
    simp only [hd, hh, hv, if_true, if_false, ite_true, ite_false,
      Bool.false_eq_true, Bool.true_eq_false, if_pos, if_neg] <;>
    first
      | exact .inl ⟨_, rfl⟩
      | exact .inr ⟨_, _, _, _, _, _, rfl⟩

lemma processExt_nay_commented (ver distro : String) (ext : Row) (q : Quad)
    (h : processExt ver distro ext = .ok q) :
    (∀ x ∈ q.2.1, commented x = true) ∧ (∀ x ∈ q.2.2.2, commented x = true) := by
  unfold processExt at h
  rcases hks : classifyDistro distro with e | ks
  · rw [hks] at h
    cases h
  · rw [hks] at h
    have h2 : processExtWith ks ver distro ext = Except.ok q := h
    rcases processExtWith_shape ks ver distro ext with ⟨e, he⟩ | ⟨dp, hp, de, he, p, t, hw⟩
    · rw [he] at h2
      cases h2
    · rw [hw] at h2
      simp only [Except.ok.injEq] at h2
      subst h2
      exact ⟨ayeNay_nay_commented dp hp p, ayeNay_nay_commented de he t⟩

/-- C2: for every catalog, version and accepted distro, the per-category
package entry and extension entry built by gen_cate_ext_list -- and, per
category, by gen_ext_list, whose i-th output entry pair is exactly the
gen_cate_ext_list pair of the i-th catalog category (last conjunct) -- are
the space-join of the collected uncommented names first and the
'#'-commented names second (a lone joining space remaining as a leading
space when no uncommented name exists), with duplicates removed keeping
only the first occurrence (specFirstDedup, modelled from the spec's words):
each surviving name occurs exactly once (Nodup) and in the relative order
process_ext emitted it (Sublist).  The token hypotheses ask that collected
names are nonempty, do not end in '#' or ' ' (so rstrip('# ') only trims
the join), and that uncommented names do not start with '#'. -/
theorem c2_entry_dedup (data : List Row) (ks : PkgClass) (ver distro cate : String)
    (pa pn ea en : List String)
    (hks : classifyDistroLower distro = .ok ks)
    (hc : collectCate data ks ver distro cate = .ok (pa, pn, ea, en))
    (hpa : ∀ x ∈ pa, goodTail x = true ∧ commented x = false)
    (hpn : ∀ x ∈ pn, goodTail x = true)
    (hea : ∀ x ∈ ea, goodTail x = true ∧ commented x = false)
    (hen : ∀ x ∈ en, goodTail x = true) :
    genCateExtList data ver distro cate =
      .ok ([specEntryJoin (specFirstDedup pa) (specFirstDedup pn)],
           [pyReplace (specEntryJoin (specFirstDedup ea) (specFirstDedup en))
              BABEL_PAT "#wiltondb"]) ∧
    (specFirstDedup pa ++ specFirstDedup pn).Nodup ∧
    (specFirstDedup ea ++ specFirstDedup en).Nodup ∧
    (specFirstDedup pa).Sublist pa ∧ (specFirstDedup pn).Sublist pn ∧
    (specFirstDedup ea).Sublist ea ∧ (specFirstDedup en).Sublist en ∧
    (∀ RP EL, genExtList data ver distro = .ok (RP, EL) →
      List.Forall₂
        (fun c p => genCateExtList data ver distro c = .ok ([p.1], [p.2]))
        (pyDedup (data.map fun e => e.category)) (RP.zip EL)) := by
  have hgen : genCateExtList data ver distro cate =
      .ok ([genEntry pa pn], [pyReplace (genEntry ea en) BABEL_PAT "#wiltondb"]) := by
    unfold genCateExtList
    rw [hks]
    show genCateExtListWith ks data ver distro cate = _
    unfold genCateExtListWith
    rw [hc]
  have hcomm : (∀ x ∈ pn, commented x = true) ∧ (∀ x ∈ en, commented x = true) := by
    unfold collectCate at hc
    rcases hm : mapME (processExt ver distro)
        (data.filter fun e =>
          e.category == cate && extRepo ks e != "CONTRIB" && e.lead) with e | quads
    · rw [hm] at hc
      cases hc
    · rw [hm] at hc
      simp only [Except.ok.injEq, Prod.mk.injEq] at hc
      obtain ⟨h1, h2, h3, h4⟩ := hc
      constructor
      · intro x hx
        rw [← h2] at hx
        rw [List.mem_flatten] at hx
        obtain ⟨l, hl, hxl⟩ := hx
        rw [List.mem_map] at hl
        obtain ⟨q, hq, rfl⟩ := hl
        obtain ⟨r, _, hr⟩ := mapME_ok_mem _ _ _ hm q hq
        exact (processExt_nay_commented ver distro r q hr).1 x hxl
      · intro x hx
        rw [← h4] at hx
        rw [List.mem_flatten] at hx
        obtain ⟨l, hl, hxl⟩ := hx
        rw [List.mem_map] at hl
        obtain ⟨q, hq, rfl⟩ := hl
        obtain ⟨r, _, hr⟩ := mapME_ok_mem _ _ _ hm q hq
        exact (processExt_nay_commented ver distro r q hr).2 x hxl
  have hEntryP : genEntry pa pn =
      specEntryJoin (specFirstDedup pa) (specFirstDedup pn) := by
    rw [genEntry_eq_full pa pn (fun x hx => (hpa x hx).1) hpn,
      pyDedup_eq_spec, pyDedup_eq_spec]
  have hEntryE : genEntry ea en =
      specEntryJoin (specFirstDedup ea) (specFirstDedup en) := by
    rw [genEntry_eq_full ea en (fun x hx => (hea x hx).1) hen,
      pyDedup_eq_spec, pyDedup_eq_spec]
  refine ⟨by rw [hgen, hEntryP, hEntryE], ?_, ?_,
    specFirstDedup_sublist pa, specFirstDedup_sublist pn,
    specFirstDedup_sublist ea, specFirstDedup_sublist en, ?_⟩
  · refine List.Nodup.append (specFirstDedup_nodup pa) (specFirstDedup_nodup pn) ?_
    intro x hxA hxN
    have h1 := (hpa x ((mem_specFirstDedup x pa).mp hxA)).2
    have h2 := hcomm.1 x ((mem_specFirstDedup x pn).mp hxN)
    rw [h1] at h2
    cases h2
  · refine List.Nodup.append (specFirstDedup_nodup ea) (specFirstDedup_nodup en) ?_
    intro x hxA hxN
    have h1 := (hea x ((mem_specFirstDedup x ea).mp hxA)).2
    have h2 := hcomm.2 x ((mem_specFirstDedup x en).mp hxN)
    rw [h1] at h2
    cases h2
  · intro RP EL hgel
    unfold genExtList at hgel
    rw [hks] at hgel
    have hgel2 : genExtListWith ks data ver distro = .ok (RP, EL) := hgel
    unfold genExtListWith at hgel2
    rcases hm2 : mapME (fun cate =>
        match collectCate data ks ver distro cate with
        | .error e => .error e
        | .ok (pkg_aye, pkg_nay, ext_aye, ext_nay) =>
          .ok (genEntry pkg_aye pkg_nay,
               pyReplace (genEntry ext_aye ext_nay) BABEL_PAT "#wiltondb"))
        (pyDedup (data.map fun e => e.category)) with e | pairs
    · rw [hm2] at hgel2
      cases hgel2
    · rw [hm2] at hgel2
      simp only [Except.ok.injEq, Prod.mk.injEq] at hgel2
      obtain ⟨hrp, hel⟩ := hgel2
      have hf2 := mapME_ok_forallTwo _ _ _ hm2
      rw [← hrp, ← hel]
      have hzip : (pairs.map (fun p => p.1)).zip (pairs.map fun p => p.2) = pairs := by
        rw [List.zip_map']
        simp
      rw [hzip]
      refine List.Forall₂.imp ?_ hf2
      intro c p hp
      unfold genCateExtList
      rw [hks]
      show genCateExtListWith ks data ver distro c = _
      unfold genCateExtListWith
      rcases hcc : collectCate data ks ver distro c with e | ⟨qa, qn, qea, qen⟩
      · rw [hcc] at hp
        cases hp
      · rw [hcc] at hp
        simp only [Except.ok.injEq] at hp
        rw [← hp]

/-- Witness rows for C2: two extensions sharing one rpm package, plus one
extension unavailable at version 17. -/
def w0 : Row :=
  { name := "alpha", aliasName := "alpha", category := "FEAT", lead := true,
    rpm_repo := "PGDG", rpm_pkg := "dup_pkg", rpm_pg := ["17"], has_rpm := true,
    deb_repo := "PGDG", deb_pkg := "alpha-deb", deb_pg := ["17"], has_deb := true }
def w1 : Row := { w0 with name := "beta", aliasName := "beta" }
def w2 : Row :=
  { w0 with
    name := "gamma", aliasName := "gamma", rpm_pkg := "gpkg", rpm_pg := ["16"] }


/-- Witness for C2 at concrete catalogs: the duplicated package name
survives once with uncommented names before the commented one; a category
whose every name is commented; and the per-category correspondence with
gen_ext_list. -/
theorem c2_entry_dedup_witness :
    (genCateExtList [w0, w1, w2] "17" "el8" "FEAT" =
      .ok ([specEntryJoin (specFirstDedup ["dup_pkg", "dup_pkg"])
              (specFirstDedup ["#gpkg"])],
           [pyReplace (specEntryJoin (specFirstDedup ["alpha", "beta"])
              (specFirstDedup ["#gamma"])) BABEL_PAT "#wiltondb"]) ∧
     (specFirstDedup ["dup_pkg", "dup_pkg"] ++ specFirstDedup ["#gpkg"]).Nodup) ∧
    (genCateExtList [w2] "17" "el8" "FEAT" =
      .ok ([specEntryJoin (specFirstDedup ([] : List String))
              (specFirstDedup ["#gpkg"])],
           [pyReplace (specEntryJoin (specFirstDedup ([] : List String))
              (specFirstDedup ["#gamma"])) BABEL_PAT "#wiltondb"])) ∧
    List.Forall₂
      (fun c p => genCateExtList [w0, w1, w2] "17" "el8" c = .ok ([p.1], [p.2]))
      (pyDedup ([w0, w1, w2].map fun e => e.category))
      ((["dup_pkg #gpkg"] : List String).zip (["alpha beta #gamma"] : List String)) := by
  refine ⟨⟨?_, ?_⟩, ?_, ?_⟩
  · exact (c2_entry_dedup [w0, w1, w2] .rpm "17" "el8" "FEAT"
      ["dup_pkg", "dup_pkg"] ["#gpkg"] ["alpha", "beta"] ["#gamma"]
      rfl rfl (by decide) (by decide) (by decide) (by decide)).1
  · exact (c2_entry_dedup [w0, w1, w2] .rpm "17" "el8" "FEAT"
      ["dup_pkg", "dup_pkg"] ["#gpkg"] ["alpha", "beta"] ["#gamma"]
      rfl rfl (by decide) (by decide) (by decide) (by decide)).2.1
  · exact (c2_entry_dedup [w2] .rpm "17" "el8" "FEAT"
      [] ["#gpkg"] [] ["#gamma"]
      rfl rfl (by decide) (by decide) (by decide) (by decide)).1
  · exact (c2_entry_dedup [w0, w1, w2] .rpm "17" "el8" "FEAT"
      ["dup_pkg", "dup_pkg"] ["#gpkg"] ["alpha", "beta"] ["#gamma"]
      rfl rfl (by decide) (by decide) (by decide)
      (by decide)).2.2.2.2.2.2.2 ["dup_pkg #gpkg"] ["alpha beta #gamma"] rfl

end PigExt
